import Mathlib

/-!
Shallow embedding of the core of the `ape-safe` repository (Safe multisig
plugin for ape): signature ordering (`ape_safe/utils.py`), the MultiSend
batch encoder/decoder (`ape_safe/multisend.py`), the transaction-index
client filtering (`ape_safe/client/base.py`), the in-memory mock client
store (`ape_safe/client/mock.py`), the revert-code mapping
(`ape_safe/exceptions.py`) and the signing orchestration of
`SafeAccount.sign_transaction` (`ape_safe/accounts.py`).

Conventions: a 20-byte account address is a `Nat` (its big-endian integer
value), byte strings are `List Nat` (each element a byte value), and a
Python `dict` is an association list whose keys are pairwise distinct.
-/

/-- A 20-byte account address, as its big-endian unsigned-integer value. -/
abbrev Address := Nat

/-- `ape.types.MessageSignature`: the `(v, r, s)` triple.  `r` and `s` are
byte strings (32 bytes each in well-formed signatures). -/
structure MessageSignature where
  v : Nat
  r : List Nat
  s : List Nat
deriving Repr, DecidableEq

/-- Big-endian interpretation of a byte string as an unsigned integer
(`int.from_bytes(b, "big")`; the empty string yields 0). -/
def beToNat (l : List Nat) : Nat :=
  l.foldl (fun acc b => acc * 256 + b) 0

/-- The `w`-byte big-endian encoding of `n` (faithful to
`eth_abi.packed.encode_packed`'s fixed-width integer encoding whenever
`n < 256 ^ w`). -/
def beBytes : Nat → Nat → List Nat
  | 0, _ => []
  | w + 1, n => beBytes w (n / 256) ++ [n % 256]

theorem beBytes_length (w n : Nat) : (beBytes w n).length = w := by
  induction w generalizing n with
  | zero => rfl
  | succ w ih => simp [beBytes, ih]

theorem beToNat_append_single (l : List Nat) (b : Nat) :
    beToNat (l ++ [b]) = beToNat l * 256 + b := by
  simp [beToNat, List.foldl_append]

theorem beToNat_beBytes (w n : Nat) (h : n < 256 ^ w) :
    beToNat (beBytes w n) = n := by
  induction w generalizing n with
  | zero =>
    simp [pow_zero, Nat.lt_one_iff] at h
    simp [h, beBytes, beToNat]
  | succ w ih =>
    have hdiv : n / 256 < 256 ^ w := by
      rw [Nat.div_lt_iff_lt_mul (by norm_num)]
      calc n < 256 ^ (w + 1) := h
        _ = 256 ^ w * 256 := by ring
    rw [beBytes, beToNat_append_single, ih _ hdiv]
    omega

/- ----------------------------------------------------------------------
`ape_safe/utils.py`: `order_by_signer`
---------------------------------------------------------------------- -/

/-- `ape_safe.utils.order_by_signer`: given a mapping from signer address
to signature (here: an association list with pairwise-distinct keys), sort
the signers ascending by address-as-integer and return their signatures in
that order.  Sorting the entries by key and projecting the values is the
same as sorting the keys and indexing the dict, because the keys are
distinct. -/
def sortedEntries (signatures : List (Address × MessageSignature)) :
    List (Address × MessageSignature) :=
  List.insertionSort (fun a b => a.1 ≤ b.1) signatures

def order_by_signer (signatures : List (Address × MessageSignature)) :
    List MessageSignature :=
  (sortedEntries signatures).map Prod.snd

/- ----------------------------------------------------------------------
`ape_safe/multisend.py`: `MultiSend.encoded_calls` / `add_from_calldata`
---------------------------------------------------------------------- -/

/-- One sub-call of a MultiSend batch as produced by `MultiSend.add`:
`{"target": ..., "value": ..., "callData": ...}`. -/
structure Call where
  target : Address
  value : Nat
  callData : List Nat
deriving Repr, DecidableEq

/-- One sub-call as reconstructed by `MultiSend.add_from_calldata`, which
additionally records the decoded `operation` byte. -/
structure DecodedCall where
  operation : Nat
  target : Address
  value : Nat
  callData : List Nat
deriving Repr, DecidableEq

/-- `MultiSend.encoded_calls`, one element: `encode_packed(["uint8",
"address", "uint256", "uint256", "bytes"], [int(OperationType.CALL),
target, value, len(callData), callData])`. -/
def encodeCall (c : Call) : List Nat :=
  beBytes 1 0 ++ beBytes 20 c.target ++ beBytes 32 c.value
    ++ beBytes 32 c.callData.length ++ c.callData

/-- `MultiSend.encoded_calls`: the per-call packed encodings, in order. -/
def encoded_calls (calls : List Call) : List (List Nat) :=
  calls.map encodeCall

/-- The decode loop of `MultiSend.add_from_calldata`: repeatedly read
1 byte of operation, 20 bytes of target, 32 bytes of value, 32 bytes of
data length, then that many bytes of data, until the buffer is
exhausted. -/
def decodeCalls (buffer : List Nat) : List DecodedCall :=
  match buffer with
  | [] => []
  | b :: rest =>
    let target := beToNat (rest.take 20)
    let r1 := rest.drop 20
    let value := beToNat (r1.take 32)
    let r2 := r1.drop 32
    let length := beToNat (r2.take 32)
    let r3 := r2.drop 32
    let data := r3.take length
    let r4 := r3.drop length
    ⟨b, target, value, data⟩ :: decodeCalls r4
termination_by buffer.length
decreasing_by
  simp only [r4, r3, r2, r1, List.length_drop, List.length_cons]
  omega

/-- `MultiSend.add_from_calldata` on the already-unwrapped `transactions`
byte string of a `multiSend` call, starting from an empty batch. -/
def add_from_calldata (transactions : List Nat) : List DecodedCall :=
  decodeCalls transactions

theorem beBytes_one_zero : beBytes 1 0 = [0] := rfl

theorem decodeCalls_encodeCall_append (c : Call) (rest : List Nat)
    (ht : c.target < 256 ^ 20) (hv : c.value < 256 ^ 32)
    (hl : c.callData.length < 256 ^ 32) :
    decodeCalls (encodeCall c ++ rest)
      = ⟨0, c.target, c.value, c.callData⟩ :: decodeCalls rest := by
  have h20 : (beBytes 20 c.target).length = 20 := beBytes_length _ _
  have h32v : (beBytes 32 c.value).length = 32 := beBytes_length _ _
  have h32l : (beBytes 32 c.callData.length).length = 32 := beBytes_length _ _
  have hshape : encodeCall c ++ rest
      = 0 :: (beBytes 20 c.target ++ (beBytes 32 c.value
          ++ (beBytes 32 c.callData.length ++ (c.callData ++ rest)))) := by
    simp [encodeCall, beBytes_one_zero]
  rw [hshape, decodeCalls]
  simp only [List.take_left' h20, List.drop_left' h20, List.take_left' h32v,
    List.drop_left' h32v, List.take_left' h32l, List.drop_left' h32l,
    beToNat_beBytes _ _ ht, beToNat_beBytes _ _ hv, beToNat_beBytes _ _ hl,
    List.take_left' rfl, List.drop_left' (rfl : c.callData.length = _)]

/-- C2: for every batch whose sub-calls all use `operation = Call` (which
is the only operation `MultiSend.encoded_calls` ever emits), decoding the
packed encoding (`b"".join(self.encoded_calls)`) with `add_from_calldata`
reconstructs exactly the original ordered list of sub-calls: order,
target, value and call-data are preserved byte-for-byte, and every
reconstructed sub-call carries `operation = 0` (`Call`). -/
theorem multisend_encode_decode_roundtrip (calls : List Call)
    (hbounds : ∀ c ∈ calls,
      c.target < 256 ^ 20 ∧ c.value < 256 ^ 32 ∧ c.callData.length < 256 ^ 32) :
    add_from_calldata (encoded_calls calls).flatten
      = calls.map (fun c => ⟨0, c.target, c.value, c.callData⟩) := by
  induction calls with
  | nil => simp [add_from_calldata, encoded_calls, decodeCalls]
  | cons c cs ih =>
    have hc := hbounds c (List.mem_cons_self c cs)
    have hcs : ∀ x ∈ cs,
        x.target < 256 ^ 20 ∧ x.value < 256 ^ 32 ∧ x.callData.length < 256 ^ 32 :=
      fun x hx => hbounds x (List.mem_cons_of_mem c hx)
    simp only [encoded_calls, add_from_calldata, List.map_cons, List.flatten_cons]
    rw [decodeCalls_encodeCall_append c _ hc.1 hc.2.1 hc.2.2]
    simpa [encoded_calls, add_from_calldata] using ih hcs

/-- Witness for C2 at a concrete two-call batch. -/
theorem multisend_encode_decode_roundtrip_witness :
    (∀ c ∈ [Call.mk 170 0 [222, 173], Call.mk 17 5 [190]],
      c.target < 256 ^ 20 ∧ c.value < 256 ^ 32 ∧ c.callData.length < 256 ^ 32)
    ∧ add_from_calldata
        (encoded_calls [Call.mk 170 0 [222, 173], Call.mk 17 5 [190]]).flatten
      = [⟨0, 170, 0, [222, 173]⟩, ⟨0, 17, 5, [190]⟩] :=
  ⟨by decide, multisend_encode_decode_roundtrip _ (by decide)⟩

theorem sortedEntries_perm (l : List (Address × MessageSignature)) :
    (sortedEntries l).Perm l :=
  List.perm_insertionSort _ l

theorem sortedEntries_pairwise_lt (l : List (Address × MessageSignature))
    (h : (l.map Prod.fst).Nodup) :
    (sortedEntries l).Pairwise (fun a b => a.1 < b.1) := by
  have hle : (sortedEntries l).Pairwise (fun a b => a.1 ≤ b.1) := by
    haveI : IsTotal (Address × MessageSignature) (fun a b => a.1 ≤ b.1) :=
      ⟨fun a b => Nat.le_total a.1 b.1⟩
    haveI : IsTrans (Address × MessageSignature) (fun a b => a.1 ≤ b.1) :=
      ⟨fun _ _ _ h1 h2 => Nat.le_trans h1 h2⟩
    exact List.sorted_insertionSort _ l
  have hmap : ((sortedEntries l).map Prod.fst).Nodup :=
    (((sortedEntries_perm l).map Prod.fst).nodup_iff).mpr h
  have hne : (sortedEntries l).Pairwise (fun a b => a.1 ≠ b.1) := by
    rw [List.Nodup, List.pairwise_map] at hmap
    exact hmap
  exact (hle.and hne).imp fun h => lt_of_le_of_ne h.1 h.2

/-- C3: `order_by_signer` returns exactly the mapping's signatures (a
permutation, hence the same multiset and length) arranged so that the
underlying entries are strictly ascending in signer address-as-integer,
and the result depends only on the set of entries, not on the mapping's
iteration order. -/
theorem order_by_signer_spec (sigs : List (Address × MessageSignature))
    (hnd : (sigs.map Prod.fst).Nodup) :
    (order_by_signer sigs).Perm (sigs.map Prod.snd)
    ∧ (sortedEntries sigs).Pairwise (fun a b => a.1 < b.1)
    ∧ ∀ sigs', sigs.Perm sigs' → order_by_signer sigs = order_by_signer sigs' := by
  refine ⟨(sortedEntries_perm sigs).map Prod.snd, sortedEntries_pairwise_lt sigs hnd, ?_⟩
  intro sigs' hp
  have hnd' : (sigs'.map Prod.fst).Nodup := ((hp.map Prod.fst).nodup_iff).mp hnd
  have hperm : (sortedEntries sigs).Perm (sortedEntries sigs') :=
    (sortedEntries_perm sigs).trans (hp.trans (sortedEntries_perm sigs').symm)
  haveI : IsAntisymm (Address × MessageSignature) (fun a b => a.1 < b.1) :=
    ⟨fun _ _ h1 h2 => absurd h2 (Nat.lt_asymm h1)⟩
  have heq : sortedEntries sigs = sortedEntries sigs' :=
    List.eq_of_perm_of_sorted hperm
      (sortedEntries_pairwise_lt sigs hnd) (sortedEntries_pairwise_lt sigs' hnd')
  simp [order_by_signer, heq]

/-- Witness for C3: for addresses `0xAA..` (= 170) and `0x11..` (= 17),
the signature of the smaller address always comes first, whichever order
the mapping lists them in. -/
theorem order_by_signer_spec_witness :
    (([(170, MessageSignature.mk 27 [1] [2]), (17, MessageSignature.mk 28 [3] [4])].map
        Prod.fst).Nodup)
    ∧ (order_by_signer
        [(170, MessageSignature.mk 27 [1] [2]), (17, MessageSignature.mk 28 [3] [4])]).Perm
        [MessageSignature.mk 27 [1] [2], MessageSignature.mk 28 [3] [4]] :=
  ⟨by decide, (order_by_signer_spec _ (by decide)).1⟩

/- ----------------------------------------------------------------------
`ape_safe/accounts.py`: `get_signatures` and `SafeAccount.sign_transaction`
---------------------------------------------------------------------- -/

/-- `SafeAccount._preapproved_signature`: the sentinel signature
`v = 1`, `r = 12 zero bytes ++ the 20-byte signer address`,
`s = 32 zero bytes`. -/
def preapproved_signature (signer : Address) : MessageSignature :=
  ⟨1, List.replicate 12 0 ++ beBytes 20 signer, List.replicate 32 0⟩

/-- Python dict assignment `d[k] = v`: replace the value at `k` when the
key is present, otherwise append the new entry. -/
def dictInsert (l : List (Address × MessageSignature)) (k : Address)
    (v : MessageSignature) : List (Address × MessageSignature) :=
  if k ∈ l.map Prod.fst then
    l.map (fun p => if p.1 = k then (k, v) else p)
  else l ++ [(k, v)]

/-- `ape_safe.accounts.get_signatures`: ask every signer in the given list
to sign; collect the signatures of those who did not decline (`signFn`
returns `none` when a signer declines). -/
def get_signatures (signFn : Address → Option MessageSignature)
    (signers : List Address) : List (Address × MessageSignature) :=
  signers.filterMap (fun a => (signFn a).map (fun s => (a, s)))

/-- `SafeAccount.load_submitter` with a `None`/address argument: `None`
resolves to the first local signer (`NoLocalSigners`, i.e. `none` here,
when there are no local signers at all). -/
def load_submitter (submitterArg : Option Address)
    (localSigners : List Address) : Option Address :=
  match submitterArg with
  | some a => some a
  | none => localSigners.head?

/-- Python truthiness of the `signatures_required` keyword argument:
`if not signatures_required:` treats both `None` and `0` as absent. -/
def truthyCount : Option Nat → Bool
  | some n => n != 0
  | none => false

/-- What `SafeAccount.sign_transaction` does after the signature-gathering
phase: raise `ValueError`, raise `NoLocalSigners`, return a signed
execution transaction carrying the final signature dict, raise
`NotEnoughSignatures(expected, actual)`, or post a proposal and return
`None`. -/
inductive SignResult where
  | valueError
  | noLocalSigners
  | submitted (finalSigs : List (Address × MessageSignature))
  | notEnough (expected actual : Nat)
  | proposed (sigs : List (Address × MessageSignature))
deriving Repr, DecidableEq

/-- Observable outcome of one `sign_transaction` call: the final value of
the `signatures_required` local, the list of local signers whose
`sign_message` is solicited in the gathering step (the `signers` list of
line 782), the merged `sigs_by_signer` dict of line 785, and the result. -/
structure SignOutcome where
  required : Nat
  solicited : List Address
  merged : List (Address × MessageSignature)
  result : SignResult
deriving Repr, DecidableEq

/-- The `signatures_required` computation of accounts.py lines 756-765:
keep a truthy keyword argument; otherwise `threshold - 1` when submitting
and the submitter is a signer, else `threshold`. -/
def requiredCount (signaturesRequiredArg : Option Nat) (submit : Bool)
    (submitter : Address) (signers : List Address)
    (confirmationsRequired : Nat) : Nat :=
  if truthyCount signaturesRequiredArg then signaturesRequiredArg.getD 0
  else if submit = true ∧ submitter ∈ signers then confirmationsRequired - 1
  else confirmationsRequired

/-- The `available_signers` iterator of accounts.py lines 753-774: all
local signers, minus the submitter exactly when the required count is
being computed as `threshold - 1`, minus the `skip` list (an empty `skip`
list is falsy and ignored, like in Python). -/
def availableSigners (signaturesRequiredArg : Option Nat) (submit : Bool)
    (submitter : Address) (signers localSigners : List Address)
    (skip : Option (List Address)) : List Address :=
  let available1 : List Address :=
    if truthyCount signaturesRequiredArg = false ∧ submit = true ∧ submitter ∈ signers then
      localSigners.filter (fun s => decide (s ≠ submitter))
    else localSigners
  match skip with
  | some l => if l = [] then available1 else available1.filter (fun s => decide (s ∉ l))
  | none => available1

/-- Line 782: the local signers actually asked to sign are those available
ones whose address is not already a key of `sigs_by_signer`. -/
def solicitedSigners (signaturesRequiredArg : Option Nat) (submit : Bool)
    (submitter : Address) (signers localSigners : List Address)
    (skip : Option (List Address))
    (existing : List (Address × MessageSignature)) : List Address :=
  (availableSigners signaturesRequiredArg submit submitter signers localSigners
      skip).filter (fun a => decide (a ∉ existing.map Prod.fst))

/-- The final branch of `sign_transaction` (accounts.py lines 787-840):
submit when submitting was requested and the merged signature count meets
the required count (inserting the submitter's pre-approved sentinel into
the dict when the submitter is a signer), raise
`NotEnoughSignatures(required, actual)` when submitting was requested but
the count falls short, and otherwise post the merged set as a proposal
and return `None`. -/
def decideResult (submit : Bool) (submitter : Address)
    (signers : List Address) (required : Nat) (solicited : List Address)
    (merged : List (Address × MessageSignature)) : SignOutcome :=
  if submit = true ∧ required ≤ merged.length then
    let final :=
      if submitter ∈ signers then
        dictInsert merged submitter (preapproved_signature submitter)
      else merged
    ⟨required, solicited, merged, .submitted final⟩
  else if submit = true then
    ⟨required, solicited, merged, .notEnough required merged.length⟩
  else
    ⟨required, solicited, merged, .proposed merged⟩

/-- `SafeAccount.sign_transaction` (accounts.py lines 736-840), with the
chain-dependent inputs made explicit: `signers` = `self.signers`,
`confirmationsRequired` = `self.confirmations_required`, `localSigners` =
`self.local_signers` (in order), `existing` = `self._all_approvals(...)`
(a dict: distinct keys), and `signFn` = each account's `sign_message`.
Python truthiness is preserved: `if not signatures_required:` treats both
`None` and `0` as absent, and `if skip:` treats an empty list as absent.
The dict merge `{**sigs_by_signer, **new_signatures}` is an append
because the gathering step only solicits signers whose address is not
already a key of `sigs_by_signer`. -/
def sign_transaction (signers : List Address) (confirmationsRequired : Nat)
    (localSigners : List Address)
    (existing : List (Address × MessageSignature))
    (signFn : Address → Option MessageSignature)
    (submit : Bool) (submitterArg : Option Address)
    (skip : Option (List Address))
    (signaturesRequiredArg : Option Nat) : SignOutcome :=
  if submit = false ∧ submitterArg.isSome then ⟨0, [], [], .valueError⟩
  else
    match load_submitter submitterArg localSigners with
    | none => ⟨0, [], [], .noLocalSigners⟩
    | some submitter =>
      let required := requiredCount signaturesRequiredArg submit submitter
        signers confirmationsRequired
      let solicited := solicitedSigners signaturesRequiredArg submit submitter
        signers localSigners skip existing
      let merged := existing ++ get_signatures signFn solicited
      decideResult submit submitter signers required solicited merged

theorem decideResult_required (submit : Bool) (submitter : Address)
    (signers : List Address) (required : Nat) (solicited : List Address)
    (merged : List (Address × MessageSignature)) :
    (decideResult submit submitter signers required solicited merged).required
      = required := by
  unfold decideResult
  repeat' split
  all_goals rfl

theorem decideResult_merged (submit : Bool) (submitter : Address)
    (signers : List Address) (required : Nat) (solicited : List Address)
    (merged : List (Address × MessageSignature)) :
    (decideResult submit submitter signers required solicited merged).merged
      = merged := by
  unfold decideResult
  repeat' split
  all_goals rfl

theorem decideResult_solicited (submit : Bool) (submitter : Address)
    (signers : List Address) (required : Nat) (solicited : List Address)
    (merged : List (Address × MessageSignature)) :
    (decideResult submit submitter signers required solicited merged).solicited
      = solicited := by
  unfold decideResult
  repeat' split
  all_goals rfl

theorem decideResult_notEnough_iff (submit : Bool) (submitter : Address)
    (signers : List Address) (required : Nat) (solicited : List Address)
    (merged : List (Address × MessageSignature)) (e a : Nat) :
    (decideResult submit submitter signers required solicited merged).result
        = SignResult.notEnough e a
      ↔ (submit = true ∧ merged.length < required ∧ e = required
          ∧ a = merged.length) := by
  unfold decideResult
  repeat' split
  all_goals constructor
  all_goals intro h
  all_goals simp_all
  all_goals omega

theorem decideResult_proposed (submit : Bool) (submitter : Address)
    (signers : List Address) (required : Nat) (solicited : List Address)
    (merged : List (Address × MessageSignature)) (h : submit = false) :
    (decideResult submit submitter signers required solicited merged).result
      = SignResult.proposed merged := by
  subst h
  unfold decideResult
  repeat' split
  all_goals simp_all

/-- In the non-degenerate paths (a submitter resolves, and a submitter is
only supplied when submitting), `sign_transaction` is the composition of
its required-count, solicitation and final-decision components. -/
theorem sign_transaction_eq (signers : List Address)
    (confirmationsRequired : Nat) (localSigners : List Address)
    (existing : List (Address × MessageSignature))
    (signFn : Address → Option MessageSignature)
    (submit : Bool) (submitterArg : Option Address)
    (skip : Option (List Address)) (signaturesRequiredArg : Option Nat)
    (submitter : Address)
    (hres : load_submitter submitterArg localSigners = some submitter)
    (hval : submit = true ∨ submitterArg = none) :
    sign_transaction signers confirmationsRequired localSigners existing
        signFn submit submitterArg skip signaturesRequiredArg
      = decideResult submit submitter signers
          (requiredCount signaturesRequiredArg submit submitter signers
            confirmationsRequired)
          (solicitedSigners signaturesRequiredArg submit submitter signers
            localSigners skip existing)
          (existing ++ get_signatures signFn
            (solicitedSigners signaturesRequiredArg submit submitter signers
              localSigners skip existing)) := by
  have houter : ¬(submit = false ∧ submitterArg.isSome = true) := by
    rcases hval with h | h <;> simp [h]
  simp only [sign_transaction, hres]
  rw [if_neg houter]

/-- C1: with no explicit `signatures_required` argument (Python also
treats `0` as absent), the required-signature count of one
`sign_transaction` call is `threshold - 1` exactly when the transaction
will be submitted and the submitter is one of the wallet's signers, and
`threshold` otherwise.  The count is a function of the submit flag, the
submitter and the signer set alone — it is the same for every state of
existing approvals and every behavior of the local signers (so it is
fixed before signatures are counted and is not recomputed during the
signer loop), and it is the count a `NotEnoughSignatures` error
reports. -/
theorem sign_transaction_required_count (signers : List Address)
    (confirmationsRequired : Nat) (localSigners : List Address)
    (existing : List (Address × MessageSignature))
    (signFn : Address → Option MessageSignature)
    (submit : Bool) (submitterArg : Option Address)
    (skip : Option (List Address)) (signaturesRequiredArg : Option Nat)
    (submitter : Address)
    (hdefault : signaturesRequiredArg = none ∨ signaturesRequiredArg = some 0)
    (hres : load_submitter submitterArg localSigners = some submitter)
    (hval : submit = true ∨ submitterArg = none) :
    ((sign_transaction signers confirmationsRequired localSigners existing
        signFn submit submitterArg skip signaturesRequiredArg).required
      = if submit = true ∧ submitter ∈ signers then confirmationsRequired - 1
        else confirmationsRequired)
    ∧ ∀ e a,
        (sign_transaction signers confirmationsRequired localSigners existing
            signFn submit submitterArg skip signaturesRequiredArg).result
          = SignResult.notEnough e a
        → e = (sign_transaction signers confirmationsRequired localSigners
            existing signFn submit submitterArg skip
            signaturesRequiredArg).required := by
  have hgiven : truthyCount signaturesRequiredArg = false := by
    rcases hdefault with h | h <;> subst h <;> rfl
  rw [sign_transaction_eq signers confirmationsRequired localSigners existing
    signFn submit submitterArg skip signaturesRequiredArg submitter hres hval]
  constructor
  · rw [decideResult_required]
    unfold requiredCount
    rw [hgiven]
    simp
  · intro e a h
    rw [decideResult_required]
    rw [decideResult_notEnough_iff] at h
    exact h.2.2.1

/-- Witness for C1: submitting with a submitter that is the sole signer
of a 2-threshold wallet requires `2 - 1` signatures. -/
theorem sign_transaction_required_count_witness :
    (load_submitter (some 5) [5] = some 5)
    ∧ (sign_transaction [5] 2 [5] []
        (fun _ => (none : Option MessageSignature)) true (some 5) none
        none).required
      = if true = true ∧ 5 ∈ [5] then 2 - 1 else 2 :=
  ⟨rfl, (sign_transaction_required_count [5] 2 [5] []
    (fun _ => (none : Option MessageSignature)) true (some 5) none none 5
    (Or.inl rfl) rfl (Or.inl rfl)).1⟩

/-- C6: `sign_transaction` raises `NotEnoughSignatures(required, actual)`
exactly when submission was requested and the merged confirmation count
falls below the required-signature count; when `submit` is false (and so
no submitter argument was supplied), it never raises but posts the merged
partial signature set as a proposal and returns `None`. -/
theorem sign_transaction_not_enough_characterization (signers : List Address)
    (confirmationsRequired : Nat) (localSigners : List Address)
    (existing : List (Address × MessageSignature))
    (signFn : Address → Option MessageSignature)
    (submit : Bool) (submitterArg : Option Address)
    (skip : Option (List Address)) (signaturesRequiredArg : Option Nat)
    (submitter : Address)
    (hres : load_submitter submitterArg localSigners = some submitter)
    (hval : submit = true ∨ submitterArg = none) :
    (∀ e a,
      (sign_transaction signers confirmationsRequired localSigners existing
          signFn submit submitterArg skip signaturesRequiredArg).result
        = SignResult.notEnough e a
      ↔ (submit = true
          ∧ (sign_transaction signers confirmationsRequired localSigners
              existing signFn submit submitterArg skip
              signaturesRequiredArg).merged.length
            < (sign_transaction signers confirmationsRequired localSigners
              existing signFn submit submitterArg skip
              signaturesRequiredArg).required
          ∧ e = (sign_transaction signers confirmationsRequired localSigners
              existing signFn submit submitterArg skip
              signaturesRequiredArg).required
          ∧ a = (sign_transaction signers confirmationsRequired localSigners
              existing signFn submit submitterArg skip
              signaturesRequiredArg).merged.length))
    ∧ (submit = false →
        (sign_transaction signers confirmationsRequired localSigners existing
            signFn submit submitterArg skip signaturesRequiredArg).result
          = SignResult.proposed
              (sign_transaction signers confirmationsRequired localSigners
                existing signFn submit submitterArg skip
                signaturesRequiredArg).merged) := by
  rw [sign_transaction_eq signers confirmationsRequired localSigners existing
    signFn submit submitterArg skip signaturesRequiredArg submitter hres hval]
  rw [decideResult_required, decideResult_merged]
  constructor
  · intro e a
    exact decideResult_notEnough_iff submit submitter signers _ _ _ e a
  · intro h
    exact decideResult_proposed submit submitter signers _ _ _ h

/-- Witness for C6: a submitting sole-signer wallet at threshold 2 with
no gathered signatures fails with `NotEnoughSignatures(1, 0)`. -/
theorem sign_transaction_not_enough_characterization_witness :
    (load_submitter (some 5) [5] = some 5)
    ∧ ((sign_transaction [5] 2 [5] []
          (fun _ => (none : Option MessageSignature)) true (some 5) none
          none).result
        = SignResult.notEnough 1 0
      ↔ (true = true
          ∧ (sign_transaction [5] 2 [5] []
              (fun _ => (none : Option MessageSignature)) true (some 5) none
              none).merged.length
            < (sign_transaction [5] 2 [5] []
              (fun _ => (none : Option MessageSignature)) true (some 5) none
              none).required
          ∧ 1 = (sign_transaction [5] 2 [5] []
              (fun _ => (none : Option MessageSignature)) true (some 5) none
              none).required
          ∧ 0 = (sign_transaction [5] 2 [5] []
              (fun _ => (none : Option MessageSignature)) true (some 5) none
              none).merged.length)) :=
  ⟨rfl, (sign_transaction_not_enough_characterization [5] 2 [5] []
    (fun _ => (none : Option MessageSignature)) true (some 5) none none 5
    rfl (Or.inl rfl)).1 1 0⟩

/-- C5 (code-bug evidence): the gathering step of `sign_transaction`
solicits every available local signer that has not yet signed, with no cap
at the required count, contradicting the in-code comment "it never should
fetch more than needed".  Concretely: threshold 1, two local signers both
willing to sign, no existing confirmations, not submitting — the required
count is 1, zero signatures are already known, yet both signers are
solicited and the merged set ends up with 2 signatures. -/
theorem sign_transaction_solicits_beyond_required :
    (sign_transaction [1, 2] 1 [1, 2] []
        (fun a => some ⟨27, [a], [a]⟩) false none none none).required = 1
    ∧ (sign_transaction [1, 2] 1 [1, 2] []
        (fun a => some ⟨27, [a], [a]⟩) false none none none).solicited
      = [1, 2]
    ∧ (sign_transaction [1, 2] 1 [1, 2] []
        (fun a => some ⟨27, [a], [a]⟩) false none none none).merged.length
      = 2 := by
  refine ⟨?_, ?_, ?_⟩ <;> rfl

/- ----------------------------------------------------------------------
`ape_safe/client/base.py`: `BaseSafeClient.get_transactions`
---------------------------------------------------------------------- -/

/-- One entry of the index ledger (`SafeApiTxData`): `executed` is true
for `ExecutedTxData` entries and false for plain `UnexecutedTxData` ones;
`confirmations` lists the confirmation owners. -/
structure TxEntry where
  nonce : Nat
  executed : Bool
  confirmations : List Address
  confirmationsRequired : Nat
  safeTxHash : Nat
deriving Repr, DecidableEq

/-- `ending_nonce is not None and txn.nonce > ending_nonce`. -/
def pastEnding : Option Nat → Nat → Bool
  | some e, n => decide (e < n)
  | none, _ => false

/-- `filter_by_ids and txn.safe_tx_hash not in filter_by_ids` (an empty
set is falsy in Python, so it disables the filter). -/
def idsFilteredOut : Option (List Nat) → Nat → Bool
  | some ids, h => decide (ids ≠ []) && decide (h ∉ ids)
  | none, _ => false

/-- `filter_by_missing_signers and
filter_by_missing_signers.issubset(set(conf.owner ...))` (an empty set is
falsy in Python, so it disables the filter). -/
def missingFilteredOut : Option (List Address) → List Address → Bool
  | some ms, owners => decide (ms ≠ []) && decide (∀ m ∈ ms, m ∈ owners)
  | none, _ => false

/-- `BaseSafeClient.get_transactions` (base.py lines 76-121) over the
descending-nonce sequence produced by `_all_transactions`: skip entries
above `ending_nonce`; stop below `starting_nonce`; with
`confirmed = False` stop at the first executed entry, with
`confirmed = True` skip under-confirmed entries; skip orphaned entries
(unexecuted with nonce below the on-chain next nonce); apply the id and
missing-signer filters; yield the rest. -/
def get_transactions (next_nonce : Nat) (confirmed : Option Bool)
    (starting_nonce : Nat) (ending_nonce : Option Nat)
    (filter_by_ids : Option (List Nat))
    (filter_by_missing_signers : Option (List Address)) :
    List TxEntry → List TxEntry
  | [] => []
  | txn :: rest =>
    if pastEnding ending_nonce txn.nonce then
      get_transactions next_nonce confirmed starting_nonce ending_nonce
        filter_by_ids filter_by_missing_signers rest
    else if txn.nonce < starting_nonce then []
    else if confirmed = some false ∧ txn.executed = true then []
    else if confirmed = some true
        ∧ ¬ txn.confirmationsRequired ≤ txn.confirmations.length then
      get_transactions next_nonce confirmed starting_nonce ending_nonce
        filter_by_ids filter_by_missing_signers rest
    else if txn.nonce < next_nonce ∧ txn.executed = false then
      get_transactions next_nonce confirmed starting_nonce ending_nonce
        filter_by_ids filter_by_missing_signers rest
    else if idsFilteredOut filter_by_ids txn.safeTxHash then
      get_transactions next_nonce confirmed starting_nonce ending_nonce
        filter_by_ids filter_by_missing_signers rest
    else if missingFilteredOut filter_by_missing_signers txn.confirmations then
      get_transactions next_nonce confirmed starting_nonce ending_nonce
        filter_by_ids filter_by_missing_signers rest
    else
      txn :: get_transactions next_nonce confirmed starting_nonce ending_nonce
        filter_by_ids filter_by_missing_signers rest

theorem get_transactions_nil (next_nonce : Nat) (confirmed : Option Bool)
    (starting_nonce : Nat) (ending_nonce : Option Nat)
    (fids : Option (List Nat)) (fmiss : Option (List Address)) :
    get_transactions next_nonce confirmed starting_nonce ending_nonce
      fids fmiss [] = [] := by
  rw [get_transactions]

theorem get_transactions_no_orphans (next_nonce : Nat) (confirmed : Option Bool)
    (starting_nonce : Nat) (ending_nonce : Option Nat)
    (fids : Option (List Nat)) (fmiss : Option (List Address))
    (txs : List TxEntry) (tx : TxEntry)
    (hmem : tx ∈ get_transactions next_nonce confirmed starting_nonce
      ending_nonce fids fmiss txs)
    (hunex : tx.executed = false) : next_nonce ≤ tx.nonce := by
  induction txs with
  | nil => rw [get_transactions_nil] at hmem; simp at hmem
  | cons h rest ih =>
    rw [get_transactions] at hmem
    split at hmem
    · exact ih hmem
    split at hmem
    · simp at hmem
    split at hmem
    · simp at hmem
    split at hmem
    · exact ih hmem
    split at hmem
    · exact ih hmem
    split at hmem
    · exact ih hmem
    split at hmem
    · exact ih hmem
    rcases List.mem_cons.mp hmem with heq | hmem
    · subst heq
      rename_i hnotorphan _ _
      rw [Nat.not_lt] at *
      by_contra hlt
      exact hnotorphan ⟨by omega, hunex⟩
    · exact ih hmem

theorem get_transactions_yields_unexecuted (next_nonce : Nat)
    (confirmed : Option Bool) (starting_nonce : Nat)
    (ending_nonce : Option Nat) (fids : Option (List Nat))
    (fmiss : Option (List Address)) (txs : List TxEntry) (tx : TxEntry)
    (hsort : txs.Pairwise (fun a b => b.nonce ≤ a.nonce))
    (hexec : ∀ t ∈ txs, t.executed = true → t.nonce < next_nonce)
    (hmem : tx ∈ txs) (hunex : tx.executed = false)
    (hge : next_nonce ≤ tx.nonce)
    (hend : pastEnding ending_nonce tx.nonce = false)
    (hstart : starting_nonce ≤ tx.nonce)
    (hconf : confirmed = some true →
      tx.confirmationsRequired ≤ tx.confirmations.length)
    (hids : idsFilteredOut fids tx.safeTxHash = false)
    (hmiss : missingFilteredOut fmiss tx.confirmations = false) :
    tx ∈ get_transactions next_nonce confirmed starting_nonce ending_nonce
      fids fmiss txs := by
  induction txs with
  | nil => simp at hmem
  | cons h rest ih =>
    obtain ⟨hhd, hrest⟩ := List.pairwise_cons.mp hsort
    have hexecr : ∀ t ∈ rest, t.executed = true → t.nonce < next_nonce :=
      fun t ht he => hexec t (List.mem_cons_of_mem _ ht) he
    rcases List.mem_cons.mp hmem with heq | hmemr
    · subst heq
      rw [get_transactions, if_neg (by simp [hend]),
        if_neg (by omega),
        if_neg (by rintro ⟨-, hx⟩; rw [hunex] at hx; cases hx),
        if_neg (by rintro ⟨hc, hn⟩; exact hn (hconf hc)),
        if_neg (by rintro ⟨hlt, -⟩; omega),
        if_neg (by simp [hids]),
        if_neg (by simp [hmiss])]
      exact List.mem_cons_self _ _
    · have ihr := ih hrest hexecr hmemr
      have htxle : tx.nonce ≤ h.nonce := hhd tx hmemr
      rw [get_transactions]
      split
      · exact ihr
      split
      · rename_i hlt
        exact absurd hlt (by omega)
      split
      · rename_i hbr
        have := hexec h (List.mem_cons_self _ _) hbr.2
        exact absurd this (by omega)
      split
      · exact ihr
      split
      · exact ihr
      split
      · exact ihr
      split
      · exact ihr
      exact List.mem_cons_of_mem _ ihr

theorem get_transactions_yields_executed (next_nonce : Nat)
    (starting_nonce : Nat) (ending_nonce : Option Nat)
    (fids : Option (List Nat)) (fmiss : Option (List Address))
    (txs : List TxEntry) (tx : TxEntry)
    (hsort : txs.Pairwise (fun a b => b.nonce ≤ a.nonce))
    (hmem : tx ∈ txs) (hexecuted : tx.executed = true)
    (hend : pastEnding ending_nonce tx.nonce = false)
    (hstart : starting_nonce ≤ tx.nonce)
    (hids : idsFilteredOut fids tx.safeTxHash = false)
    (hmiss : missingFilteredOut fmiss tx.confirmations = false) :
    tx ∈ get_transactions next_nonce none starting_nonce ending_nonce
      fids fmiss txs := by
  induction txs with
  | nil => simp at hmem
  | cons h rest ih =>
    obtain ⟨hhd, hrest⟩ := List.pairwise_cons.mp hsort
    rcases List.mem_cons.mp hmem with heq | hmemr
    · subst heq
      rw [get_transactions, if_neg (by simp [hend]),
        if_neg (by omega),
        if_neg (by rintro ⟨hc, -⟩; cases hc),
        if_neg (by rintro ⟨hc, -⟩; cases hc),
        if_neg (by rintro ⟨-, hx⟩; rw [hexecuted] at hx; cases hx),
        if_neg (by simp [hids]),
        if_neg (by simp [hmiss])]
      exact List.mem_cons_self _ _
    · have ihr := ih hrest hmemr
      have htxle : tx.nonce ≤ h.nonce := hhd tx hmemr
      rw [get_transactions]
      split
      · exact ihr
      split
      · rename_i hlt
        exact absurd hlt (by omega)
      split
      · rename_i hbr
        cases hbr.1
      split
      · exact ihr
      split
      · exact ihr
      split
      · exact ihr
      split
      · exact ihr
      exact List.mem_cons_of_mem _ ihr

/-- C4: the orphan rule of `get_transactions`.  (i) An unexecuted entry
whose nonce is strictly below the on-chain next nonce is never yielded,
under any combination of the other parameters.  (ii) Over a
descending-nonce sequence in which executed entries sit below the next
nonce (the index-server guarantee), an unexecuted entry with nonce at or
above the next nonce that passes the other filters is yielded.
(iii) Executed entries are not removed by the orphan rule: an executed
entry passing the other filters is yielded (with no `confirmed` filter)
even when its nonce is below the next nonce. -/
theorem get_transactions_orphan_filtering :
    (∀ (next_nonce : Nat) (confirmed : Option Bool) (starting_nonce : Nat)
        (ending_nonce : Option Nat) (fids : Option (List Nat))
        (fmiss : Option (List Address)) (txs : List TxEntry) (tx : TxEntry),
      tx ∈ get_transactions next_nonce confirmed starting_nonce ending_nonce
        fids fmiss txs
      → tx.executed = false → next_nonce ≤ tx.nonce)
    ∧ (∀ (next_nonce : Nat) (confirmed : Option Bool) (starting_nonce : Nat)
        (ending_nonce : Option Nat) (fids : Option (List Nat))
        (fmiss : Option (List Address)) (txs : List TxEntry) (tx : TxEntry),
      txs.Pairwise (fun a b => b.nonce ≤ a.nonce)
      → (∀ t ∈ txs, t.executed = true → t.nonce < next_nonce)
      → tx ∈ txs → tx.executed = false → next_nonce ≤ tx.nonce
      → pastEnding ending_nonce tx.nonce = false
      → starting_nonce ≤ tx.nonce
      → (confirmed = some true →
          tx.confirmationsRequired ≤ tx.confirmations.length)
      → idsFilteredOut fids tx.safeTxHash = false
      → missingFilteredOut fmiss tx.confirmations = false
      → tx ∈ get_transactions next_nonce confirmed starting_nonce
          ending_nonce fids fmiss txs)
    ∧ (∀ (next_nonce : Nat) (starting_nonce : Nat) (ending_nonce : Option Nat)
        (fids : Option (List Nat)) (fmiss : Option (List Address))
        (txs : List TxEntry) (tx : TxEntry),
      txs.Pairwise (fun a b => b.nonce ≤ a.nonce)
      → tx ∈ txs → tx.executed = true
      → pastEnding ending_nonce tx.nonce = false
      → starting_nonce ≤ tx.nonce
      → idsFilteredOut fids tx.safeTxHash = false
      → missingFilteredOut fmiss tx.confirmations = false
      → tx ∈ get_transactions next_nonce none starting_nonce ending_nonce
          fids fmiss txs) :=
  ⟨get_transactions_no_orphans, get_transactions_yields_unexecuted,
    get_transactions_yields_executed⟩

/-- Witness for C4, the spec's example: on-chain next nonce 5, pending
(unexecuted) records at nonces 5 and 3, `confirmed = False`: the record
at nonce 5 is yielded (and by part (i) the orphan at nonce 3 never
is). -/
theorem get_transactions_orphan_filtering_witness :
    TxEntry.mk 5 false [] 2 100
      ∈ get_transactions 5 (some false) 0 none none none
          [TxEntry.mk 5 false [] 2 100, TxEntry.mk 3 false [] 2 101] :=
  get_transactions_orphan_filtering.2.1 5 (some false) 0 none none none
    [TxEntry.mk 5 false [] 2 100, TxEntry.mk 3 false [] 2 101]
    (TxEntry.mk 5 false [] 2 100)
    (by decide) (by decide) (by decide) (by decide) (by decide) (by decide)
    (by decide) (by decide) (by decide) (by decide)

/- ----------------------------------------------------------------------
`ape_safe/exceptions.py`: `SAFE_ERROR_CODES` and `handle_safe_logic_error`
---------------------------------------------------------------------- -/

/-- The fixed revert-code table of exceptions.py lines 44-74. -/
def SAFE_ERROR_CODES : List (String × String) := [
  ("GS000", "Could not finish initialization"),
  ("GS001", "Threshold needs to be defined"),
  ("GS010", "Not enough gas to execute Safe transaction"),
  ("GS011", "Could not pay gas costs with ether"),
  ("GS012", "Could not pay gas costs with token"),
  ("GS013", "Safe transaction failed when gasPrice and safeTxGas were 0"),
  ("GS020", "Signatures data too short"),
  ("GS021", "Invalid contract signature location: inside static part"),
  ("GS022", "Invalid contract signature location: length not present"),
  ("GS023", "Invalid contract signature location: data not complete"),
  ("GS024", "Invalid contract signature provided"),
  ("GS025", "Hash has not been approved"),
  ("GS026", "Invalid owner provided"),
  ("GS030", "Only owners can approve a hash"),
  ("GS031", "Method can only be called from this contract"),
  ("GS100", "Modules have already been initialized"),
  ("GS101", "Invalid module address provided"),
  ("GS102", "Module has already been added"),
  ("GS103", "Invalid prevModule, module pair provided"),
  ("GS104", "Method can only be called from an enabled module"),
  ("GS105", "Invalid starting point for fetching paginated modules"),
  ("GS106", "Invalid page size for fetching paginated modules"),
  ("GS200", "Owners have already been set up"),
  ("GS201", "Threshold cannot exceed owner count"),
  ("GS202", "Threshold needs to be greater than 0"),
  ("GS203", "Invalid owner address provided"),
  ("GS204", "Address is already an owner"),
  ("GS205", "Invalid prevOwner, owner pair provided"),
  ("GS300", "Guard does not implement IERC165")]

/-- How the type of the active exception relates to `ContractLogicError`:
the exact class, a proper subclass, or an unrelated type.  The guard
`isinstance(exc, ContractLogicError) and exc_type == ContractLogicError`
holds exactly for the exact class. -/
inductive ExcType where
  | contractLogicError
  | contractLogicSubclass
  | other
deriving Repr, DecidableEq

/-- The active exception seen by `handle_safe_logic_error.__exit__`. -/
structure ExcInfo where
  ty : ExcType
  message : String
deriving Repr, DecidableEq

/-- What leaves `handle_safe_logic_error.__exit__`: a `SafeLogicError`
with the formatted description, a `KeyError` (when
`SafeLogicError.__init__` indexes `SAFE_ERROR_CODES` with a key that is
not present), or the original exception (because `__exit__` returns
`None`). -/
inductive ExitOutcome where
  | raisedSafeLogicError (description : List Char)
  | raisedKeyError (code : List Char)
  | propagateOriginal
deriving Repr, DecidableEq

/-- `l` starts with the pattern `pat` (Python `str.startswith`). -/
def listStartsWith (l pat : List Char) : Bool :=
  match l, pat with
  | _, [] => true
  | [], _ :: _ => false
  | a :: as, b :: bs => a = b && listStartsWith as bs

/-- Python `str.replace(pat, repl)`: replace every non-overlapping
occurrence of `pat`, scanning left to right.  Structured with explicit
fuel (each step consumes at least one character, so `s.length` steps
always suffice) to keep the recursion structural. -/
def pyReplaceFuel : Nat → List Char → List Char → List Char → List Char
  | 0, s, _, _ => s
  | fuel + 1, s, pat, repl =>
    match s with
    | [] => []
    | c :: cs =>
      if pat ≠ [] ∧ listStartsWith (c :: cs) pat then
        repl ++ pyReplaceFuel fuel ((c :: cs).drop pat.length) pat repl
      else c :: pyReplaceFuel fuel cs pat repl

def pyReplace (s pat repl : List Char) : List Char :=
  pyReplaceFuel s.length s pat repl

/-- Python `str.strip()` restricted to the ASCII whitespace characters
(sufficient for the messages at hand). -/
def isSpaceChar (c : Char) : Bool :=
  c = ' ' || c = '\t' || c = '\n' || c = '\r'

def pyStrip (s : List Char) : List Char :=
  ((s.dropWhile isSpaceChar).reverse.dropWhile isSpaceChar).reverse

/-- `SAFE_ERROR_CODES[code]` as a partial lookup. -/
def lookupErrorCode (code : List Char) : Option String :=
  (SAFE_ERROR_CODES.find? (fun p => p.1.toList == code)).map Prod.snd

/-- `handle_safe_logic_error.__exit__` (exceptions.py lines 86-95) on a
raised exception.  The membership check uses
`exc.message.replace("revert: ", "").strip()` but
`SafeLogicError.__init__` receives `exc.message.replace("revert: ", "")`
without the `.strip()`, and indexes the table with it
(`SAFE_ERROR_CODES[error_code]`). -/
def handle_safe_logic_error_exit (exc : ExcInfo) : ExitOutcome :=
  if exc.ty = ExcType.contractLogicError then
    let message := pyStrip (pyReplace exc.message.toList "revert: ".toList [])
    if listStartsWith message "GS".toList
        ∧ (SAFE_ERROR_CODES.map (fun p => p.1.toList)).contains message then
      let code := pyReplace exc.message.toList "revert: ".toList []
      match lookupErrorCode code with
      | some desc => .raisedSafeLogicError (desc.toList ++ " (".toList ++ code ++ ")".toList)
      | none => .raisedKeyError code
    else .propagateOriginal
  else .propagateOriginal

/-- C7 (code-bug evidence): an exact `ContractLogicError` with a message
that strips to a known GS code is mapped; a subclass, an unrelated type,
or an unknown code propagates unchanged — but a message carrying
whitespace around a known code (here `"revert: GS013 "`) passes the
stripped membership check while `SafeLogicError.__init__` is handed the
unstripped `"GS013 "` and crashes with a `KeyError` on
`SAFE_ERROR_CODES["GS013 "]`, so neither the mapped `SafeLogicError` nor
the original revert reaches the caller. -/
theorem handle_safe_logic_error_mapping_cases :
    handle_safe_logic_error_exit ⟨ExcType.contractLogicError, "revert: GS013"⟩
      = ExitOutcome.raisedSafeLogicError
          "Safe transaction failed when gasPrice and safeTxGas were 0 (GS013)".toList
    ∧ handle_safe_logic_error_exit
        ⟨ExcType.contractLogicSubclass, "revert: GS013"⟩
      = ExitOutcome.propagateOriginal
    ∧ handle_safe_logic_error_exit ⟨ExcType.other, "revert: GS013"⟩
      = ExitOutcome.propagateOriginal
    ∧ handle_safe_logic_error_exit ⟨ExcType.contractLogicError, "revert: GS999"⟩
      = ExitOutcome.propagateOriginal
    ∧ handle_safe_logic_error_exit ⟨ExcType.contractLogicError, "revert: GS013 "⟩
      = ExitOutcome.raisedKeyError "GS013 ".toList := by
  refine ⟨?_, ?_, ?_, ?_, ?_⟩ <;> decide

/- ----------------------------------------------------------------------
`ape_safe/client/mock.py`: `MockSafeClient.post_transaction` /
`post_signatures`
---------------------------------------------------------------------- -/

/-- `ape_safe.client.types.SafeTxConfirmation`, reduced to the fields the
store logic inspects (`submissionDate` and `signatureType` are constants
at the creation sites and never read by post logic). -/
structure SafeTxConfirmation where
  owner : Address
  signature : List Nat
deriving Repr, DecidableEq

/-- `MessageSignature.encode_rsv()`: the 65-byte `r ‖ s ‖ v` form. -/
def encode_rsv (s : MessageSignature) : List Nat :=
  s.r ++ s.s ++ [s.v]

/-- One stored record of `MockSafeClient.transactions` (an
`UnexecutedTxData`, reduced to the fields the claims inspect). -/
structure StoredTx where
  safeTxHash : Nat
  nonce : Nat
  confirmations : List SafeTxConfirmation
deriving Repr, DecidableEq

/-- `MockSafeClient.transactions`: a dict from tx id to record. -/
abbrev MockTxStore := List (Nat × StoredTx)

/-- Python `self.transactions.get(tx_id)`. -/
def lookupTx (st : MockTxStore) (k : Nat) : Option StoredTx :=
  (st.find? (fun p => p.1 == k)).map Prod.snd

/-- Python `self.transactions[tx_id] = v` on a unique-key dict: replace
in place when the key is present, append otherwise. -/
def dictSetTx : MockTxStore → Nat → StoredTx → MockTxStore
  | [], k, v => [(k, v)]
  | p :: ps, k, v => if p.1 = k then (k, v) :: ps else p :: dictSetTx ps k v

/-- `MockSafeClient.delegator_for_delegate`. -/
def delegator_for_delegate (delegates : List (Address × List Address))
    (delegate : Address) : Option Address :=
  (delegates.find? (fun p => decide (delegate ∈ p.2))).map Prod.fst

/-- `MockSafeClient.post_transaction` (mock.py lines 92-126): build a
fresh record whose confirmations come from the `signatures` dict entries
whose signer is an owner; raise (`.error`) when that set is empty and no
non-owner signer is a delegate of an owner; store the record under its tx
id (the `transactions_by_nonce` index is not modeled — it carries no
confirmations). -/
def post_transaction (owners : List Address)
    (delegates : List (Address × List Address)) (st : MockTxStore)
    (txHash nonce : Nat)
    (signatures : List (Address × MessageSignature)) :
    Except Unit MockTxStore :=
  let confs := (signatures.filter (fun p => decide (p.1 ∈ owners))).map
    (fun p => SafeTxConfirmation.mk p.1 (encode_rsv p.2))
  let delegateOk := ((signatures.map Prod.fst).filter
    (fun s => decide (s ∉ owners))).any
    (fun d => match delegator_for_delegate delegates d with
      | some del => decide (del ∈ owners)
      | none => false)
  if confs.length = 0 ∧ delegateOk = false then .error ()
  else .ok (dictSetTx st txHash (StoredTx.mk txHash nonce confs))

/-- One iteration of the `post_signatures` loop (mock.py lines 133-147):
look the record up (`KeyError`, modeled as `.error`, when the id is
unknown) and append a confirmation for the posted signer. -/
def post_signatures_step (txHash : Nat)
    (acc : Except Unit MockTxStore) (p : Address × MessageSignature) :
    Except Unit MockTxStore :=
  match acc with
  | .error e => .error e
  | .ok st =>
    match lookupTx st txHash with
    | none => .error ()
    | some record => .ok (dictSetTx st txHash
        { record with confirmations :=
            record.confirmations
              ++ [SafeTxConfirmation.mk p.1 (encode_rsv p.2)] })

/-- `MockSafeClient.post_signatures`. -/
def post_signatures (st : MockTxStore) (txHash : Nat)
    (signatures : List (Address × MessageSignature)) :
    Except Unit MockTxStore :=
  signatures.foldl (post_signatures_step txHash) (.ok st)

/-- The claimed store invariant: every stored record's confirmation
owners are pairwise distinct. -/
def ownersDistinct (st : MockTxStore) : Prop :=
  ∀ p ∈ st, (p.2.confirmations.map SafeTxConfirmation.owner).Nodup

theorem mem_dictSetTx (st : MockTxStore) (k : Nat) (v : StoredTx)
    (p : Nat × StoredTx) (hp : p ∈ dictSetTx st k v) :
    p = (k, v) ∨ p ∈ st := by
  induction st with
  | nil =>
    simp [dictSetTx] at hp
    exact Or.inl hp
  | cons q qs ih =>
    rw [dictSetTx] at hp
    split at hp
    · rcases List.mem_cons.mp hp with h | h
      · exact Or.inl h
      · exact Or.inr (List.mem_cons_of_mem _ h)
    · rcases List.mem_cons.mp hp with h | h
      · exact Or.inr (h ▸ List.mem_cons_self _ _)
      · rcases ih h with h1 | h1
        · exact Or.inl h1
        · exact Or.inr (List.mem_cons_of_mem _ h1)

theorem lookupTx_dictSetTx_self (st : MockTxStore) (k : Nat) (v : StoredTx) :
    lookupTx (dictSetTx st k v) k = some v := by
  induction st with
  | nil => simp [dictSetTx, lookupTx, List.find?]
  | cons q qs ih =>
    rw [dictSetTx]
    split
    · simp [lookupTx, List.find?]
    · rename_i hne
      simp only [lookupTx, List.find?] at ih ⊢
      rw [show (q.1 == k) = false by simp [hne]]
      exact ih

theorem lookupTx_mem (st : MockTxStore) (k : Nat) (record : StoredTx)
    (h : lookupTx st k = some record) : ∃ p ∈ st, p.2 = record := by
  unfold lookupTx at h
  cases hf : st.find? (fun p => p.1 == k) with
  | none => rw [hf] at h; cases h
  | some q =>
    rw [hf] at h
    simp at h
    exact ⟨q, List.mem_of_find?_eq_some hf, h⟩

theorem foldl_post_signatures_step_error (txHash : Nat)
    (ps : List (Address × MessageSignature)) :
    List.foldl (post_signatures_step txHash) (Except.error ()) ps
      = Except.error () := by
  induction ps with
  | nil => rfl
  | cons p ps ih => rw [List.foldl_cons]; exact ih

theorem post_transaction_preserves (owners : List Address)
    (delegates : List (Address × List Address)) (st : MockTxStore)
    (txHash nonce : Nat) (signatures : List (Address × MessageSignature))
    (st' : MockTxStore)
    (hkeys : (signatures.map Prod.fst).Nodup)
    (hinv : ownersDistinct st)
    (hok : post_transaction owners delegates st txHash nonce signatures
      = Except.ok st') :
    ownersDistinct st' := by
  simp only [post_transaction] at hok
  split at hok
  · cases hok
  · have hst' : st' = dictSetTx st txHash
        (StoredTx.mk txHash nonce
          ((signatures.filter (fun p => decide (p.1 ∈ owners))).map
            (fun p => SafeTxConfirmation.mk p.1 (encode_rsv p.2)))) := by
      cases hok
      rfl
    subst hst'
    intro p hp
    rcases mem_dictSetTx _ _ _ _ hp with hpe | hpm
    · subst hpe
      have hsub :
          ((signatures.filter (fun p => decide (p.1 ∈ owners))).map Prod.fst).Sublist
            (signatures.map Prod.fst) :=
        (List.filter_sublist signatures).map Prod.fst
      have hnd := hkeys.sublist hsub
      simpa [List.map_map, Function.comp] using hnd
    · exact hinv p hpm

theorem post_signatures_preserves (txHash : Nat)
    (sigs : List (Address × MessageSignature)) :
    ∀ (st st' : MockTxStore),
    ownersDistinct st
    → (sigs.map Prod.fst).Nodup
    → (∀ record, lookupTx st txHash = some record →
        ∀ o ∈ sigs.map Prod.fst,
          o ∉ record.confirmations.map SafeTxConfirmation.owner)
    → post_signatures st txHash sigs = Except.ok st'
    → ownersDistinct st' := by
  induction sigs with
  | nil =>
    intro st st' hinv _ _ hok
    unfold post_signatures at hok
    simp at hok
    subst hok
    exact hinv
  | cons p ps ih =>
    intro st st' hinv hnodup hdisj hok
    unfold post_signatures at hok
    rw [List.foldl_cons] at hok
    cases hlk : lookupTx st txHash with
    | none =>
      rw [show post_signatures_step txHash (Except.ok st) p = Except.error ()
          by simp [post_signatures_step, hlk]] at hok
      rw [foldl_post_signatures_step_error] at hok
      cases hok
    | some record =>
      have hstep : post_signatures_step txHash (Except.ok st) p
          = Except.ok (dictSetTx st txHash
            { record with confirmations :=
                record.confirmations
                  ++ [SafeTxConfirmation.mk p.1 (encode_rsv p.2)] }) := by
        simp [post_signatures_step, hlk]
      rw [hstep] at hok
      have hpo : p.1 ∉ record.confirmations.map SafeTxConfirmation.owner :=
        hdisj record hlk p.1 (by simp)
      have hrecnd : (record.confirmations.map SafeTxConfirmation.owner).Nodup := by
        obtain ⟨q, hq, hqe⟩ := lookupTx_mem st txHash record hlk
        exact hqe ▸ hinv q hq
      have hkeynd : p.1 ∉ ps.map Prod.fst ∧ (ps.map Prod.fst).Nodup := by
        rw [List.map_cons] at hnodup
        exact List.nodup_cons.mp hnodup
      refine ih _ st' ?_ hkeynd.2 ?_ hok
      · intro q hq
        rcases mem_dictSetTx _ _ _ _ hq with hqe | hqm
        · subst hqe
          simp only [List.map_append]
          rw [List.nodup_append]
          refine ⟨hrecnd, by simp, ?_⟩
          intro o ho hmem
          simp at hmem
          subst hmem
          exact hpo ho
        · exact hinv q hqm
      · intro record' hlk' o ho
        rw [lookupTx_dictSetTx_self] at hlk'
        cases hlk'
        simp only [List.map_append]
        intro hmem
        rcases List.mem_append.mp hmem with h1 | h1
        · exact hdisj record hlk o (List.mem_cons_of_mem _ ho) h1
        · simp at h1
          subst h1
          exact hkeynd.1 ho

/-- C9 counterexample: post a transaction with one owner confirmation,
then post a signature for the same owner — `post_signatures` appends a
second confirmation for that owner instead of replacing the first, so the
store leaves the claimed distinct-owners invariant. -/
theorem mock_duplicate_confirmation_counterexample :
    post_transaction [1] [] [] 7 0 [(1, MessageSignature.mk 27 [1] [2])]
      = Except.ok [(7, StoredTx.mk 7 0 [SafeTxConfirmation.mk 1 [1, 2, 27]])]
    ∧ post_signatures
        [(7, StoredTx.mk 7 0 [SafeTxConfirmation.mk 1 [1, 2, 27]])] 7
        [(1, MessageSignature.mk 27 [1] [2])]
      = Except.ok [(7, StoredTx.mk 7 0
          [SafeTxConfirmation.mk 1 [1, 2, 27],
            SafeTxConfirmation.mk 1 [1, 2, 27]])]
    ∧ ¬ ownersDistinct [(7, StoredTx.mk 7 0
          [SafeTxConfirmation.mk 1 [1, 2, 27],
            SafeTxConfirmation.mk 1 [1, 2, 27]])] := by
  refine ⟨rfl, rfl, fun h => ?_⟩
  have := h _ (List.mem_singleton_self _)
  simp at this

/-- C9 (amended): `post_transaction` always stores a record whose
confirmation owners are pairwise distinct (they are keys of the
`signatures` dict filtered to owners) and preserves the invariant for
every other record; `post_signatures`, however, appends unconditionally,
so it preserves the invariant only when no posted owner has already
confirmed the target record (and the posted owners are themselves
distinct) — otherwise it duplicates, as the counterexample shows. -/
theorem mock_confirmation_owner_uniqueness :
    (∀ (owners : List Address) (delegates : List (Address × List Address))
        (st : MockTxStore) (txHash nonce : Nat)
        (signatures : List (Address × MessageSignature)) (st' : MockTxStore),
      (signatures.map Prod.fst).Nodup
      → ownersDistinct st
      → post_transaction owners delegates st txHash nonce signatures
          = Except.ok st'
      → ownersDistinct st')
    ∧ (∀ (txHash : Nat) (sigs : List (Address × MessageSignature))
        (st st' : MockTxStore),
      ownersDistinct st
      → (sigs.map Prod.fst).Nodup
      → (∀ record, lookupTx st txHash = some record →
          ∀ o ∈ sigs.map Prod.fst,
            o ∉ record.confirmations.map SafeTxConfirmation.owner)
      → post_signatures st txHash sigs = Except.ok st'
      → ownersDistinct st') :=
  ⟨post_transaction_preserves, post_signatures_preserves⟩

/-- Witness for C9's amended claim, at a concrete post. -/
theorem mock_confirmation_owner_uniqueness_witness :
    (([((1 : Address), MessageSignature.mk 27 [1] [2])].map Prod.fst).Nodup)
    ∧ ownersDistinct []
    ∧ ownersDistinct [(7, StoredTx.mk 7 0 [SafeTxConfirmation.mk 1 [1, 2, 27]])] :=
  ⟨by decide, by intro p hp; simp at hp,
    mock_confirmation_owner_uniqueness.1 [1] [] [] 7 0
      [(1, MessageSignature.mk 27 [1] [2])] _ (by decide)
      (by intro p hp; simp at hp) rfl⟩

/- ----------------------------------------------------------------------
`ape_safe/accounts.py`: `SafeAccount.get_api_confirmations`
---------------------------------------------------------------------- -/

/-- `MessageSignature(r=sig[:32], s=sig[32:64], v=sig[64])`: decode the
first 65 bytes of a stored confirmation signature (faithful to the Python
for signatures of at least 65 bytes; shorter ones make Python raise
`IndexError` on `sig[64]`). -/
def decode_confirmation_signature (sig : List Nat) : MessageSignature :=
  MessageSignature.mk (sig.getD 64 0) (sig.take 32) ((sig.drop 32).take 32)

/-- `SafeAccount.get_api_confirmations` (accounts.py lines 632-653) with
the client call made explicit: `fetch` is the outcome of
`self.client.get_confirmations(safe_tx_id)` — `.error` when it raises a
`SafeClientException` (which the method logs and swallows), `.ok` with
the confirmation list otherwise.  The dict comprehension is modeled by
folding dict insertion over the list. -/
def get_api_confirmations (fetch : Except Unit (List SafeTxConfirmation)) :
    List (Address × MessageSignature) :=
  match fetch with
  | .error _ => []
  | .ok confs => confs.foldl
      (fun acc c => dictInsert acc c.owner
        (decode_confirmation_signature c.signature)) []

theorem dictInsert_not_mem (l : List (Address × MessageSignature))
    (k : Address) (v : MessageSignature) (h : k ∉ l.map Prod.fst) :
    dictInsert l k v = l ++ [(k, v)] := by
  unfold dictInsert
  rw [if_neg h]

theorem confirmations_fold_eq (confs : List SafeTxConfirmation) :
    ∀ acc : List (Address × MessageSignature),
    (confs.map SafeTxConfirmation.owner).Nodup
    → (∀ c ∈ confs, c.owner ∉ acc.map Prod.fst)
    → confs.foldl
        (fun acc c => dictInsert acc c.owner
          (decode_confirmation_signature c.signature)) acc
      = acc ++ confs.map
          (fun c => (c.owner, decode_confirmation_signature c.signature)) := by
  induction confs with
  | nil => intro acc _ _; simp
  | cons c cs ih =>
    intro acc hnd hdisj
    rw [List.map_cons] at hnd
    obtain ⟨hco, hnd'⟩ := List.nodup_cons.mp hnd
    rw [List.foldl_cons,
      dictInsert_not_mem acc c.owner _ (hdisj c (List.mem_cons_self _ _))]
    rw [ih (acc ++ [(c.owner, decode_confirmation_signature c.signature)]) hnd']
    · simp
    · intro c' hc'
      simp only [List.map_append, List.map_cons]
      intro hmem
      rcases List.mem_append.mp hmem with h1 | h1
      · exact hdisj c' (List.mem_cons_of_mem _ hc') h1
      · simp at h1
        exact hco (h1 ▸ List.mem_map_of_mem SafeTxConfirmation.owner hc')

/-- C10: `get_api_confirmations` never propagates an index-client error —
a `SafeClientException` from the fetch yields the empty mapping — and on
success it returns one entry per confirmation, keyed by owner, whose
signature is decoded from the first 65 stored bytes as
`r = sig[:32]`, `s = sig[32:64]`, `v = sig[64]` (owners pairwise
distinct; signatures at least 65 bytes, as Python would raise otherwise). -/
theorem get_api_confirmations_spec :
    (∀ e : Unit, get_api_confirmations (Except.error e) = [])
    ∧ (∀ confs : List SafeTxConfirmation,
        (confs.map SafeTxConfirmation.owner).Nodup
        → (∀ c ∈ confs, 65 ≤ c.signature.length)
        → get_api_confirmations (Except.ok confs)
          = confs.map (fun c => (c.owner,
              MessageSignature.mk (c.signature.getD 64 0)
                (c.signature.take 32) ((c.signature.drop 32).take 32)))) := by
  constructor
  · intro e; rfl
  · intro confs hnd _
    simp only [get_api_confirmations]
    rw [confirmations_fold_eq confs [] hnd (by intro c _ h; simp at h)]
    simp [decode_confirmation_signature]

/-- Witness for C10 at one concrete 65-byte confirmation. -/
theorem get_api_confirmations_spec_witness :
    (([SafeTxConfirmation.mk 9 (List.replicate 65 1)].map
        SafeTxConfirmation.owner).Nodup)
    ∧ (∀ c ∈ [SafeTxConfirmation.mk 9 (List.replicate 65 1)],
        65 ≤ c.signature.length)
    ∧ get_api_confirmations
        (Except.ok [SafeTxConfirmation.mk 9 (List.replicate 65 1)])
      = [SafeTxConfirmation.mk 9 (List.replicate 65 1)].map
          (fun c => (c.owner,
            MessageSignature.mk (c.signature.getD 64 0)
              (c.signature.take 32) ((c.signature.drop 32).take 32))) :=
  ⟨by decide, by decide,
    get_api_confirmations_spec.2 [SafeTxConfirmation.mk 9 (List.replicate 65 1)]
      (by decide) (by decide)⟩

/- ----------------------------------------------------------------------
`ape_safe/multisend.py`: `MultiSend._validate_safe_tx` / `as_safe_tx`
---------------------------------------------------------------------- -/

/-- The Safe transaction record fields that `MultiSend.as_safe_tx`
determines (via `SafeAccount.create_safe_tx`): the wrapped call targets
the MultiSend contract, forwards the caller-supplied value (the handler
transaction's own value is 0, overridden by a `value=` keyword), carries
the batch payload as call-data (the ABI envelope of the `multiSend`
selector around the joined bytes is elided), and uses `DELEGATECALL`
(operation 1). -/
structure SafeTxRecord where
  toAddr : Address
  value : Nat
  data : List Nat
  operation : Nat
  nonce : Nat
deriving Repr, DecidableEq

/-- `MultiSend.as_safe_tx` (multisend.py lines 208-219). -/
def as_safe_tx (multisendAddr : Address) (calls : List Call) (nonce : Nat)
    (valueKwarg : Option Nat) : SafeTxRecord :=
  { toAddr := multisendAddr,
    value := valueKwarg.getD 0,
    data := (encoded_calls calls).flatten,
    operation := 1,
    nonce := nonce }

/-- `MultiSend._validate_safe_tx` (multisend.py lines 186-189): raise
`ValueRequired(required_value)` (the spec's `ValueMismatch`) when the sum
of the sub-call values exceeds the record's declared value. -/
def validate_safe_tx (calls : List Call) (safeTx : SafeTxRecord) :
    Except Nat Unit :=
  let required_value := (calls.map Call.value).sum
  if required_value > safeTx.value then .error required_value else .ok ()

/-- C8: converting a batch into its wrapped record fails validation with
`ValueRequired` (carrying the required sum) exactly when the declared
value is strictly below the sum of the sub-call values; otherwise
validation succeeds, and the wrapped record is a `DELEGATECALL` to the
MultiSend contract carrying the packed batch payload. -/
theorem multisend_value_requirement (multisendAddr : Address)
    (calls : List Call) (nonce : Nat) (valueKwarg : Option Nat) :
    (validate_safe_tx calls (as_safe_tx multisendAddr calls nonce valueKwarg)
        = Except.error ((calls.map Call.value).sum)
      ↔ (as_safe_tx multisendAddr calls nonce valueKwarg).value
          < (calls.map Call.value).sum)
    ∧ ((calls.map Call.value).sum
          ≤ (as_safe_tx multisendAddr calls nonce valueKwarg).value
        → validate_safe_tx calls (as_safe_tx multisendAddr calls nonce valueKwarg)
          = Except.ok ())
    ∧ (as_safe_tx multisendAddr calls nonce valueKwarg).operation = 1
    ∧ (as_safe_tx multisendAddr calls nonce valueKwarg).toAddr = multisendAddr
    ∧ (as_safe_tx multisendAddr calls nonce valueKwarg).data
        = (encoded_calls calls).flatten := by
  refine ⟨?_, ?_, rfl, rfl, rfl⟩
  · simp only [validate_safe_tx]
    split
    · rename_i hgt
      simp only [true_iff, eq_self_iff_true]
      omega
    · rename_i hle
      constructor
      · intro h; cases h
      · intro h; omega
  · intro hle
    simp only [validate_safe_tx]
    rw [if_neg (by omega)]

/-- Witness for C8, the spec's example: sub-call values 0 and 5 with a
declared value of 5 pass validation (and by the iff, a declared value of
3 fails with the required sum 5). -/
theorem multisend_value_requirement_witness :
    ((([Call.mk 2 0 [170], Call.mk 3 5 [187]].map Call.value).sum : Nat)
        ≤ (as_safe_tx 9 [Call.mk 2 0 [170], Call.mk 3 5 [187]] 0 (some 5)).value)
    ∧ validate_safe_tx [Call.mk 2 0 [170], Call.mk 3 5 [187]]
        (as_safe_tx 9 [Call.mk 2 0 [170], Call.mk 3 5 [187]] 0 (some 5))
      = Except.ok () :=
  ⟨by decide,
    (multisend_value_requirement 9 [Call.mk 2 0 [170], Call.mk 3 5 [187]] 0
      (some 5)).2.1 (by decide)⟩
